import Mathlib

/-!
Verification of the todo-repository core of `rust-api`.

The Rust sources are shallowly embedded as pure Lean functions:

* `String` stands for Rust's `String`; `rustTrim`, `rustLen` model
  `str::trim` (Unicode `White_Space` property) and `str::len`
  (UTF-8 byte count).
* The `HashMap<u64, Todo>` of `state.rs` is modelled as an association
  list with `lookupA` / `insertA` / `eraseA` mirroring `get`, `insert`
  and `remove`; `u64` ids become `Nat`.
* Each repository method of `impl TodoRepo for RwLock<InMemory>`
  becomes a pure function `InMemory → Except AppError α × InMemory`;
  the lock is dropped since the methods are verified as atomic steps.
* The `u64` counter `next_id` becomes a `Nat` with the wrap of
  `next_id += 1` made explicit: the increment is taken modulo `2 ^ 64`
  (release-build semantics; a debug build would abort at the same
  point instead of handing out an id).
* The HTTP handlers of `routes.rs` that add behaviour (validation
  before the repository call) are embedded as `create_todo` and
  `update_todo`; the error-to-response mapping of `errors.rs` becomes
  `AppError.intoResponse`.
-/

set_option autoImplicit false

deriving instance DecidableEq for Except

namespace RustApi

/-- UTF-8 encoded size of a character, as used by Rust's `str::len`. -/
def charUtf8Size (c : Char) : Nat :=
  if c.toNat < 0x80 then 1
  else if c.toNat < 0x800 then 2
  else if c.toNat < 0x10000 then 3
  else 4

/-- Rust's `str::len`: the length of the string in UTF-8 bytes. -/
def rustLen (s : String) : Nat :=
  (s.data.map charUtf8Size).sum

/-- Rust's `char::is_whitespace`: the Unicode `White_Space` property. -/
def rustIsWhitespace (c : Char) : Bool :=
  c.toNat == 0x09 || c.toNat == 0x0A || c.toNat == 0x0B || c.toNat == 0x0C ||
  c.toNat == 0x0D || c.toNat == 0x20 || c.toNat == 0x85 || c.toNat == 0xA0 ||
  c.toNat == 0x1680 ||
  c.toNat == 0x2000 || c.toNat == 0x2001 || c.toNat == 0x2002 ||
  c.toNat == 0x2003 || c.toNat == 0x2004 || c.toNat == 0x2005 ||
  c.toNat == 0x2006 || c.toNat == 0x2007 || c.toNat == 0x2008 ||
  c.toNat == 0x2009 || c.toNat == 0x200A ||
  c.toNat == 0x2028 || c.toNat == 0x2029 || c.toNat == 0x202F ||
  c.toNat == 0x205F || c.toNat == 0x3000

/-- Rust's `str::trim`: drop `White_Space` characters from both ends. -/
def rustTrim (s : String) : String :=
  ⟨((s.data.dropWhile rustIsWhitespace).reverse.dropWhile rustIsWhitespace).reverse⟩

/-- `models.rs`: the `Todo` entity. -/
structure Todo where
  id : Nat
  title : String
  done : Bool
deriving DecidableEq

/-- `models.rs`: the `CreateTodo` payload. -/
structure CreateTodo where
  title : String
deriving DecidableEq

/-- `models.rs`: the `UpdateTodo` payload. -/
structure UpdateTodo where
  title : Option String
  done : Option Bool
deriving DecidableEq

/-- `errors.rs`: the `AppError` enum. -/
inductive AppError where
  | NotFound
  | Validation (msg : String)
  | Internal
deriving DecidableEq

/-- `errors.rs`: the `Display` impl derived by `thiserror`
(`"not found"`, `"validation error: {0}"`, `"internal error"`). -/
def AppError.displayText : AppError → String
  | .NotFound => "not found"
  | .Validation m => "validation error: " ++ m
  | .Internal => "internal error"

/-- `errors.rs`: the JSON error body `ErrorBody { error }`. -/
structure ErrorBody where
  error : String
deriving DecidableEq

/-- `errors.rs`: `impl IntoResponse for AppError`, as the pair of the
HTTP status code and the JSON error body. -/
def AppError.intoResponse : AppError → Nat × ErrorBody
  | .NotFound => (404, ⟨AppError.NotFound.displayText⟩)
  | .Validation m => (400, ⟨(AppError.Validation m).displayText⟩)
  | .Internal => (500, ⟨AppError.Internal.displayText⟩)

/-- `models.rs`: `CreateTodo::validate`. -/
def CreateTodo.validate (input : CreateTodo) : Except AppError Unit :=
  if (rustTrim input.title).data.isEmpty then
    .error (.Validation "title cannot be empty")
  else if rustLen input.title > 100 then
    .error (.Validation "title cannot be longer than 100 characters")
  else
    .ok ()

/-- `models.rs`: `UpdateTodo::validate`. -/
def UpdateTodo.validate (input : UpdateTodo) : Except AppError Unit :=
  match input.title with
  | some t =>
    if (rustTrim t).data.isEmpty then
      .error (.Validation "title cannot be empty")
    else if rustLen t > 100 then
      .error (.Validation "title cannot be longer than 100 characters")
    else
      .ok ()
  | none => .ok ()

/-- `HashMap::get` on the association-list model of the store. -/
def lookupA : List (Nat × Todo) → Nat → Option Todo
  | [], _ => none
  | (k', v) :: rest, k => if k' = k then some v else lookupA rest k

/-- `HashMap::insert`: replace the binding of `k` in place, or append it. -/
def insertA : List (Nat × Todo) → Nat → Todo → List (Nat × Todo)
  | [], k, v => [(k, v)]
  | (k', v') :: rest, k, v =>
    if k' = k then (k, v) :: rest else (k', v') :: insertA rest k v

/-- `HashMap::remove`: drop the binding of `k`. -/
def eraseA : List (Nat × Todo) → Nat → List (Nat × Todo)
  | [], _ => []
  | (k', v') :: rest, k =>
    if k' = k then rest else (k', v') :: eraseA rest k

/-- The modulus of Rust's `u64`: `next_id += 1` wraps at this bound. -/
def u64Mod : Nat := 2 ^ 64

/-- `state.rs`: the `InMemory` store (`next_id` counter plus items map).
`next_id` models the `u64` counter; the wrap is applied at the increment
in `repoCreate`. -/
structure InMemory where
  next_id : Nat
  items : List (Nat × Todo)
deriving DecidableEq

/-- `InMemory::default()`: counter at 0, empty map. -/
def initialState : InMemory := ⟨0, []⟩

/-- `state.rs`: `TodoRepo::list` for `RwLock<InMemory>`. -/
def repoList (s : InMemory) : Except AppError (List Todo) × InMemory :=
  (.ok (s.items.map Prod.snd), s)

/-- `state.rs`: `TodoRepo::create` for `RwLock<InMemory>`; the
`guard.next_id += 1` of the source wraps modulo `2 ^ 64` (`u64`). -/
def repoCreate (s : InMemory) (input : CreateTodo) :
    Except AppError Todo × InMemory :=
  if (rustTrim input.title).data.isEmpty then
    (.error (.Validation "title cannot be empty"), s)
  else
    (.ok ⟨(s.next_id + 1) % u64Mod, input.title, false⟩,
      ⟨(s.next_id + 1) % u64Mod,
        insertA s.items ((s.next_id + 1) % u64Mod)
          ⟨(s.next_id + 1) % u64Mod, input.title, false⟩⟩)

/-- `state.rs`: `TodoRepo::get` for `RwLock<InMemory>`. -/
def repoGet (s : InMemory) (id : Nat) : Except AppError Todo × InMemory :=
  match lookupA s.items id with
  | some t => (.ok t, s)
  | none => (.error .NotFound, s)

/-- `state.rs`: the title peek at the start of `TodoRepo::update`
(`Some(title)` with `title.trim().is_empty()`). -/
def titleTrimEmpty (input : UpdateTodo) : Bool :=
  match input.title with
  | some t => (rustTrim t).data.isEmpty
  | none => false

/-- `state.rs`: the body of `TodoRepo::update` once the pre-lock checks
passed: look the record up, apply the present fields, store and return
the new copy. -/
def applyUpdate (s : InMemory) (id : Nat) (input : UpdateTodo) :
    Except AppError Todo × InMemory :=
  match lookupA s.items id with
  | none => (.error .NotFound, s)
  | some t =>
    (.ok ⟨t.id, input.title.getD t.title, input.done.getD t.done⟩,
      ⟨s.next_id,
        insertA s.items id ⟨t.id, input.title.getD t.title, input.done.getD t.done⟩⟩)

/-- `state.rs`: `TodoRepo::update` for `RwLock<InMemory>`. -/
def repoUpdate (s : InMemory) (id : Nat) (input : UpdateTodo) :
    Except AppError Todo × InMemory :=
  if titleTrimEmpty input then
    (.error (.Validation "title cannot be empty"), s)
  else if input.title.isNone && input.done.isNone then
    (.error (.Validation "provide at least one field to update"), s)
  else
    applyUpdate s id input

/-- `state.rs`: `TodoRepo::delete` for `RwLock<InMemory>`. -/
def repoDelete (s : InMemory) (id : Nat) : Except AppError Unit × InMemory :=
  match lookupA s.items id with
  | some _ => (.ok (), ⟨s.next_id, eraseA s.items id⟩)
  | none => (.error .NotFound, s)

/-- `routes.rs`: `create_todo` — `payload.validate()?` then the
repository `create`. -/
def create_todo (s : InMemory) (payload : CreateTodo) :
    Except AppError Todo × InMemory :=
  match payload.validate with
  | .error e => (.error e, s)
  | .ok _ => repoCreate s payload

/-- `routes.rs`: `update_todo` — `payload.validate()?` then the
repository `update`. -/
def update_todo (s : InMemory) (id : Nat) (payload : UpdateTodo) :
    Except AppError Todo × InMemory :=
  match payload.validate with
  | .error e => (.error e, s)
  | .ok _ => repoUpdate s id payload

/-- The validation performed on the update path: `UpdateTodo::validate`
in the handler (`routes.rs`) followed by the two pre-lock checks at the
top of `TodoRepo::update` (`state.rs`). Together these realise the
spec's `validateUpdate`. -/
def validateUpdatePath (input : UpdateTodo) : Except AppError Unit :=
  match input.validate with
  | .error e => .error e
  | .ok _ =>
    if titleTrimEmpty input then
      .error (.Validation "title cannot be empty")
    else if input.title.isNone && input.done.isNone then
      .error (.Validation "provide at least one field to update")
    else
      .ok ()

/-- One client request against the repository, for whole-trace claims. -/
inductive Op where
  | create (input : CreateTodo)
  | get (id : Nat)
  | update (id : Nat) (input : UpdateTodo)
  | delete (id : Nat)
  | list

/-- The number of `create` operations in a trace (successful or not). -/
def countCreates : List Op → Nat
  | [] => 0
  | Op.create _ :: rest => countCreates rest + 1
  | Op.get _ :: rest => countCreates rest
  | Op.update _ _ :: rest => countCreates rest
  | Op.delete _ :: rest => countCreates rest
  | Op.list :: rest => countCreates rest

/-- The successive values the wrapping `u64` counter hands out: starting
after `k`, the ids of `n` consecutive successful creates. -/
def wrapIds (k : Nat) : Nat → List Nat
  | 0 => []
  | n + 1 => ((k + 1) % u64Mod) :: wrapIds ((k + 1) % u64Mod) n

/-- The id a `create` call returned, if it succeeded. -/
def createdId : Except AppError Todo → Option Nat
  | .ok t => some t.id
  | .error _ => none

/-- Execute one operation: the next store state, together with the id
returned when the operation was a successful `create`. -/
def applyOp (s : InMemory) : Op → InMemory × Option Nat
  | .create input => ((repoCreate s input).2, createdId (repoCreate s input).1)
  | .get id => ((repoGet s id).2, none)
  | .update id input => ((repoUpdate s id input).2, none)
  | .delete id => ((repoDelete s id).2, none)
  | .list => ((repoList s).2, none)

/-- Execute a sequence of operations, collecting the ids returned by
the successful `create` calls in completion order. -/
def runOps : InMemory → List Op → InMemory × List Nat
  | s, [] => (s, [])
  | s, op :: rest =>
    ((runOps (applyOp s op).1 rest).1,
      (applyOp s op).2.toList ++ (runOps (applyOp s op).1 rest).2)

/-- Every entry of the items map carries a `Todo` whose `id` field
equals its key. -/
def KeysMatch (s : InMemory) : Prop :=
  ∀ p ∈ s.items, p.2.id = p.1

instance (s : InMemory) : Decidable (KeysMatch s) :=
  inferInstanceAs (Decidable (∀ p ∈ s.items, p.2.id = p.1))

theorem lookupA_insertA (m : List (Nat × Todo)) (k k' : Nat) (v : Todo) :
    lookupA (insertA m k v) k' = if k' = k then some v else lookupA m k' := by
  induction m with
  | nil =>
    by_cases h : k' = k
    · subst h; simp [insertA, lookupA]
    · simp [insertA, lookupA, h, Ne.symm h]
  | cons p rest ih =>
    obtain ⟨k₀, v₀⟩ := p
    by_cases hk : k₀ = k
    · subst hk
      by_cases h' : k' = k₀
      · subst h'; simp [insertA, lookupA]
      · simp [insertA, lookupA, h', Ne.symm h']
    · by_cases h' : k₀ = k'
      · subst h'
        simp [insertA, lookupA, hk]
      · simp [insertA, lookupA, hk, h', ih]

theorem lookupA_eraseA_ne (m : List (Nat × Todo)) (k k' : Nat) (h : k' ≠ k) :
    lookupA (eraseA m k) k' = lookupA m k' := by
  induction m with
  | nil => simp [eraseA]
  | cons p rest ih =>
    obtain ⟨k₀, v₀⟩ := p
    by_cases hk : k₀ = k
    · subst hk; simp [eraseA, lookupA, Ne.symm h]
    · simp [eraseA, lookupA, hk, ih]

theorem lookupA_eq_none_of_not_mem (m : List (Nat × Todo)) (k : Nat)
    (h : k ∉ m.map Prod.fst) : lookupA m k = none := by
  induction m with
  | nil => rfl
  | cons p rest ih =>
    obtain ⟨k₀, v₀⟩ := p
    simp only [List.map_cons, List.mem_cons] at h
    push_neg at h
    simp [lookupA, Ne.symm h.1, ih h.2]

theorem lookupA_eraseA_self (m : List (Nat × Todo)) (k : Nat)
    (h : (m.map Prod.fst).Nodup) : lookupA (eraseA m k) k = none := by
  induction m with
  | nil => rfl
  | cons p rest ih =>
    obtain ⟨k₀, v₀⟩ := p
    simp only [List.map_cons, List.nodup_cons] at h
    by_cases hk : k₀ = k
    · subst hk; simp [eraseA, lookupA_eq_none_of_not_mem rest k₀ h.1]
    · simp [eraseA, lookupA, hk, ih h.2]

theorem mem_insertA (m : List (Nat × Todo)) (k : Nat) (v : Todo)
    (p : Nat × Todo) (h : p ∈ insertA m k v) : p = (k, v) ∨ p ∈ m := by
  induction m with
  | nil => simp [insertA] at h; simp [h]
  | cons q rest ih =>
    obtain ⟨k₀, v₀⟩ := q
    by_cases hk : k₀ = k
    · subst hk; simp [insertA] at h
      rcases h with h | h
      · exact Or.inl h
      · exact Or.inr (List.mem_cons_of_mem _ h)
    · simp [insertA, hk] at h
      rcases h with h | h
      · exact Or.inr (by simp [h])
      · rcases ih h with h' | h'
        · exact Or.inl h'
        · exact Or.inr (List.mem_cons_of_mem _ h')

theorem mem_eraseA (m : List (Nat × Todo)) (k : Nat)
    (p : Nat × Todo) (h : p ∈ eraseA m k) : p ∈ m := by
  induction m with
  | nil => simp [eraseA] at h
  | cons q rest ih =>
    obtain ⟨k₀, v₀⟩ := q
    by_cases hk : k₀ = k
    · subst hk; simp [eraseA] at h
      exact List.mem_cons_of_mem _ h
    · simp [eraseA, hk] at h
      rcases h with h | h
      · simp [h]
      · exact List.mem_cons_of_mem _ (ih h)

theorem lookupA_mem (m : List (Nat × Todo)) (k : Nat) (t : Todo)
    (h : lookupA m k = some t) : (k, t) ∈ m := by
  induction m with
  | nil => simp [lookupA] at h
  | cons q rest ih =>
    obtain ⟨k₀, v₀⟩ := q
    by_cases hk : k₀ = k
    · subst hk; simp [lookupA] at h; simp [h]
    · simp [lookupA, hk] at h
      exact List.mem_cons_of_mem _ (ih h)


theorem repoList_state (s : InMemory) : (repoList s).2 = s := rfl

theorem repoGet_state (s : InMemory) (id : Nat) : (repoGet s id).2 = s := by
  unfold repoGet; cases lookupA s.items id <;> rfl

theorem applyUpdate_next_id (s : InMemory) (id : Nat) (input : UpdateTodo) :
    (applyUpdate s id input).2.next_id = s.next_id := by
  unfold applyUpdate; cases lookupA s.items id <;> rfl

theorem repoUpdate_next_id (s : InMemory) (id : Nat) (input : UpdateTodo) :
    (repoUpdate s id input).2.next_id = s.next_id := by
  unfold repoUpdate
  split
  · rfl
  · split
    · rfl
    · exact applyUpdate_next_id s id input

theorem repoDelete_next_id (s : InMemory) (id : Nat) :
    (repoDelete s id).2.next_id = s.next_id := by
  unfold repoDelete; cases lookupA s.items id <;> rfl

theorem repoCreate_error_state (s : InMemory) (input : CreateTodo) (e : AppError)
    (h : (repoCreate s input).1 = .error e) : (repoCreate s input).2 = s := by
  by_cases hc : (rustTrim input.title).data.isEmpty = true
  · simp [repoCreate, hc]
  · simp [repoCreate, hc] at h

theorem repoUpdate_error_state (s : InMemory) (id : Nat) (input : UpdateTodo) (e : AppError)
    (h : (repoUpdate s id input).1 = .error e) : (repoUpdate s id input).2 = s := by
  by_cases h1 : titleTrimEmpty input = true
  · simp [repoUpdate, h1]
  · by_cases h2 : (input.title.isNone && input.done.isNone) = true
    · simp [repoUpdate, h1, h2]
    · simp only [repoUpdate, h1, h2, if_false, Bool.false_eq_true, if_neg, ite_false] at h ⊢
      unfold applyUpdate at h ⊢
      cases hl : lookupA s.items id with
      | none => simp [hl]
      | some t => simp [hl] at h

theorem repoDelete_error_state (s : InMemory) (id : Nat) (e : AppError)
    (h : (repoDelete s id).1 = .error e) : (repoDelete s id).2 = s := by
  unfold repoDelete at h ⊢
  cases hl : lookupA s.items id with
  | none => simp [hl]
  | some t => simp [hl] at h

theorem countCreates_cons_le (op : Op) (rest : List Op) :
    countCreates rest ≤ countCreates (op :: rest) := by
  cases op <;> simp [countCreates]

theorem applyOp_spec (s : InMemory) (op : Op) :
    ((applyOp s op).2 = none ∧ (applyOp s op).1.next_id = s.next_id) ∨
    ((applyOp s op).2 = some ((s.next_id + 1) % u64Mod) ∧
      (applyOp s op).1.next_id = (s.next_id + 1) % u64Mod ∧
      ∃ input, op = Op.create input) := by
  cases op with
  | create input =>
    by_cases hc : (rustTrim input.title).data.isEmpty = true
    · left; simp [applyOp, repoCreate, hc, createdId]
    · right
      refine ⟨?_, ?_, input, rfl⟩ <;> simp [applyOp, repoCreate, hc, createdId]
  | get id => left; simp [applyOp, repoGet_state]
  | update id input => left; simp [applyOp, repoUpdate_next_id]
  | delete id => left; simp [applyOp, repoDelete_next_id]
  | list => left; simp [applyOp, repoList]

theorem runOps_facts (ops : List Op) : ∀ s : InMemory,
    s.next_id + countCreates ops < u64Mod →
    (s.next_id ≤ (runOps s ops).1.next_id ∧
     (∀ i ∈ (runOps s ops).2, s.next_id < i ∧ i ≤ (runOps s ops).1.next_id) ∧
     ((runOps s ops).2).Pairwise (· < ·) ∧
     (∀ i, ((runOps s ops).2).head? = some i → i = s.next_id + 1)) := by
  induction ops with
  | nil =>
    intro s _
    refine ⟨Nat.le_refl _, ?_, ?_, ?_⟩ <;> simp [runOps]
  | cons op rest ih =>
    intro s hg
    rcases applyOp_spec s op with ⟨h2, h1⟩ | ⟨h2, h1, input, hop⟩
    · have hg' : (applyOp s op).1.next_id + countCreates rest < u64Mod := by
        have hle := countCreates_cons_le op rest
        rw [h1]
        omega
      have hrest := ih (applyOp s op).1 hg'
      rw [h1] at hrest
      simp only [runOps, h2, Option.toList_none, List.nil_append]
      exact hrest
    · subst hop
      have hcc : countCreates (Op.create input :: rest) = countCreates rest + 1 := rfl
      rw [hcc] at hg
      have hmod : (s.next_id + 1) % u64Mod = s.next_id + 1 :=
        Nat.mod_eq_of_lt (by omega)
      rw [hmod] at h1 h2
      have hg' : (applyOp s (Op.create input)).1.next_id + countCreates rest < u64Mod := by
        rw [h1]
        omega
      obtain ⟨ha, hb, hc, _⟩ := ih (applyOp s (Op.create input)).1 hg'
      rw [h1] at ha hb
      simp only [runOps, h2, Option.toList_some, List.singleton_append]
      refine ⟨Nat.le_trans (Nat.le_succ _) ha, ?_, ?_, ?_⟩
      · intro i hi
        rcases List.mem_cons.mp hi with rfl | hi
        · exact ⟨Nat.lt_succ_self _, ha⟩
        · exact ⟨Nat.lt_trans (Nat.lt_succ_self _) (hb i hi).1, (hb i hi).2⟩
      · exact List.Pairwise.cons (fun i hi => (hb i hi).1) hc
      · intro i hi
        simp only [List.head?_cons, Option.some.injEq] at hi
        omega

theorem mem_wrapIds_last : ∀ (n k : Nat), 0 < n → (k + n) % u64Mod ∈ wrapIds k n := by
  intro n
  induction n with
  | zero =>
    intro k h
    exact absurd h (Nat.lt_irrefl 0)
  | succ n ih =>
    intro k _
    cases Nat.eq_zero_or_pos n with
    | inl h0 =>
      subst h0
      simp [wrapIds]
    | inr hpos =>
      show (k + (n + 1)) % u64Mod ∈
        ((k + 1) % u64Mod) :: wrapIds ((k + 1) % u64Mod) n
      have he : ((k + 1) % u64Mod + n) % u64Mod = (k + (n + 1)) % u64Mod := by
        rw [Nat.mod_add_mod]
        congr 1
        omega
      rw [← he]
      exact List.mem_cons_of_mem _ (ih ((k + 1) % u64Mod) hpos)

theorem wrapIds_succ (k n : Nat) :
    wrapIds k (n + 1) = ((k + 1) % u64Mod) :: wrapIds ((k + 1) % u64Mod) n := rfl

theorem wrapIds_not_pairwise (k : Nat) :
    ¬ ((wrapIds k (u64Mod + 1)).Pairwise (· ≠ ·)) := by
  intro hp
  rw [wrapIds_succ] at hp
  have hmem : ((k + 1) % u64Mod + u64Mod) % u64Mod ∈ wrapIds ((k + 1) % u64Mod) u64Mod :=
    mem_wrapIds_last u64Mod ((k + 1) % u64Mod) (by decide)
  have hne := (List.pairwise_cons.mp hp).1 _ hmem
  apply hne
  rw [Nat.mod_add_mod, Nat.add_mod_right]

theorem runOps_replicate_create : ∀ (n : Nat) (s : InMemory),
    (runOps s (List.replicate n (Op.create ⟨"a"⟩))).2 = wrapIds s.next_id n := by
  intro n
  induction n with
  | zero =>
    intro s
    simp [runOps, wrapIds]
  | succ n ih =>
    intro s
    have ha : (rustTrim "a").data.isEmpty = true ↔ False := by decide
    rw [List.replicate_succ]
    simp only [runOps, applyOp, repoCreate, ha, iff_false, ite_false, if_neg,
      not_false_eq_true, createdId, Option.toList_some, List.singleton_append,
      wrapIds]
    rw [ih]

theorem keysMatch_applyOp (s : InMemory) (op : Op) (h : KeysMatch s) :
    KeysMatch (applyOp s op).1 := by
  cases op with
  | create input =>
    by_cases hc : (rustTrim input.title).data.isEmpty = true
    · simpa [applyOp, repoCreate, hc] using h
    · intro p hp
      simp only [applyOp, repoCreate, hc, Bool.false_eq_true, if_false, ite_false, if_neg] at hp
      rcases mem_insertA _ _ _ _ hp with rfl | hp
      · rfl
      · exact h p hp
  | get id => simpa [applyOp, repoGet_state] using h
  | update id input =>
    by_cases h1 : titleTrimEmpty input = true
    · simpa [applyOp, repoUpdate, h1] using h
    · by_cases h2 : (input.title.isNone && input.done.isNone) = true
      · simpa [applyOp, repoUpdate, h1, h2] using h
      · intro p hp
        simp only [applyOp, repoUpdate, h1, h2, Bool.false_eq_true, if_false, ite_false, if_neg] at hp
        cases hl : lookupA s.items id with
        | none => unfold applyUpdate at hp; rw [hl] at hp; exact h p hp
        | some t =>
          unfold applyUpdate at hp; rw [hl] at hp
          rcases mem_insertA _ _ _ _ hp with rfl | hp
          · exact h (id, t) (lookupA_mem _ _ _ hl)
          · exact h p hp
  | delete id =>
    intro p hp
    simp only [applyOp, repoDelete] at hp
    cases hl : lookupA s.items id with
    | none => rw [hl] at hp; exact h p hp
    | some t => rw [hl] at hp; exact h p (mem_eraseA _ _ _ hp)
  | list => simpa [applyOp, repoList] using h

theorem keysMatch_runOps (ops : List Op) : ∀ s : InMemory,
    KeysMatch s → KeysMatch (runOps s ops).1 := by
  induction ops with
  | nil => intro s h; simpa [runOps] using h
  | cons op rest ih =>
    intro s h
    simp only [runOps]
    exact ih _ (keysMatch_applyOp s op h)


theorem update_todo_eq_validateUpdatePath (s : InMemory) (id : Nat) (input : UpdateTodo) :
    update_todo s id input =
      (match validateUpdatePath input with
       | .error e => (.error e, s)
       | .ok _ => applyUpdate s id input) := by
  unfold update_todo validateUpdatePath repoUpdate
  cases hv : input.validate with
  | error e => rfl
  | ok u =>
    cases u
    by_cases h1 : titleTrimEmpty input = true <;>
      by_cases h2 : (input.title.isNone && input.done.isNone) = true <;>
      simp [h1, h2]

/-- C1: the create endpoint (`create_todo` = `CreateTodo::validate` then
`TodoRepo::create`) fails with a `Validation` error exactly when the input is
invalid (trimmed title empty, or title longer than 100 bytes), never fails for
any other reason, and on valid input assigns the next id, stores
`{id, title, done := false}` and returns that record; instantiated at the
empty store the first create returns id 1. -/
theorem C1_create_contract : ∀ (s : InMemory) (input : CreateTodo),
    (((rustTrim input.title).data.isEmpty = false ∧ rustLen input.title ≤ 100) →
      create_todo s input =
        (.ok ⟨(s.next_id + 1) % u64Mod, input.title, false⟩,
          ⟨(s.next_id + 1) % u64Mod,
            insertA s.items ((s.next_id + 1) % u64Mod)
              ⟨(s.next_id + 1) % u64Mod, input.title, false⟩⟩)) ∧
    (((rustTrim input.title).data.isEmpty = true ∨ 100 < rustLen input.title) ↔
      ∃ m, (create_todo s input).1 = .error (.Validation m)) ∧
    (∀ e, (create_todo s input).1 = .error e → ∃ m, e = .Validation m) := by
  intro s input
  by_cases hc : (rustTrim input.title).data.isEmpty = true
  · refine ⟨?_, ⟨?_, ?_⟩, ?_⟩
    · intro h
      rw [h.1] at hc
      exact Bool.noConfusion hc
    · intro _
      exact ⟨"title cannot be empty", by simp [create_todo, CreateTodo.validate, hc]⟩
    · intro _
      exact Or.inl hc
    · intro e he
      simp [create_todo, CreateTodo.validate, hc] at he
      exact ⟨"title cannot be empty", he.symm⟩
  · by_cases hl : 100 < rustLen input.title
    · refine ⟨?_, ⟨?_, ?_⟩, ?_⟩
      · intro h
        exact absurd hl (not_lt.mpr h.2)
      · intro _
        exact ⟨"title cannot be longer than 100 characters",
          by simp [create_todo, CreateTodo.validate, hc, hl]⟩
      · intro _
        exact Or.inr hl
      · intro e he
        simp [create_todo, CreateTodo.validate, hc, hl] at he
        exact ⟨"title cannot be longer than 100 characters", he.symm⟩
    · have hok : create_todo s input =
          (.ok ⟨(s.next_id + 1) % u64Mod, input.title, false⟩,
            ⟨(s.next_id + 1) % u64Mod,
              insertA s.items ((s.next_id + 1) % u64Mod)
                ⟨(s.next_id + 1) % u64Mod, input.title, false⟩⟩) := by
        simp [create_todo, CreateTodo.validate, repoCreate, hc, hl]
      refine ⟨fun _ => hok, ⟨?_, ?_⟩, ?_⟩
      · intro h
        rcases h with h | h
        · exact absurd h hc
        · exact absurd h hl
      · intro hm
        obtain ⟨m, hm⟩ := hm
        simp [hok] at hm
      · intro e he
        simp [hok] at he

/-- C1 witness: on the fresh store, `create({title:"learn rust"})` returns
`{id := 1, title := "learn rust", done := false}` and stores it. -/
theorem C1_create_witness :
    create_todo ⟨0, []⟩ ⟨"learn rust"⟩ =
      (.ok ⟨1, "learn rust", false⟩, ⟨1, [(1, ⟨1, "learn rust", false⟩)]⟩) :=
  (C1_create_contract ⟨0, []⟩ ⟨"learn rust"⟩).1 (by decide)

/-- C2 counterexample: the `u64` counter wraps. Running `2 ^ 64 + 1`
consecutive creates from the fresh store hands the id 1 out twice (the
2 ^ 64-th create wraps the counter to 0), so the ids of that trace are
neither pairwise distinct nor strictly increasing, refuting the claim's
for-every-sequence uniqueness and monotonicity. -/
theorem C2_counterexample :
    ¬ (((runOps initialState
          (List.replicate (u64Mod + 1) (Op.create ⟨"a"⟩))).2).Pairwise (· ≠ ·)) ∧
    ¬ (((runOps initialState
          (List.replicate (u64Mod + 1) (Op.create ⟨"a"⟩))).2).Pairwise (· < ·)) := by
  have hne : ¬ (((runOps initialState
      (List.replicate (u64Mod + 1) (Op.create ⟨"a"⟩))).2).Pairwise (· ≠ ·)) := by
    rw [runOps_replicate_create]
    exact wrapIds_not_pairwise initialState.next_id
  exact ⟨hne, fun hlt => hne (hlt.imp Nat.ne_of_lt)⟩

/-- C2 amended: as long as the `u64` counter cannot wrap — the trace holds
fewer than 2 ^ 64 creates — `next_id` only increases, the ids returned by
successive successful creates are strictly increasing (hence pairwise
distinct and never reused, also across deletes), and the first assigned id
is 1; at the 2 ^ 64-th create the counter wraps and ids repeat. -/
theorem C2_id_invariant : ∀ ops : List Op,
    (∀ s : InMemory, s.next_id + countCreates ops < u64Mod →
      s.next_id ≤ (runOps s ops).1.next_id) ∧
    (countCreates ops < u64Mod →
      ((runOps initialState ops).2).Pairwise (· < ·) ∧
      ((runOps initialState ops).2).Pairwise (· ≠ ·) ∧
      (∀ i, ((runOps initialState ops).2).head? = some i → i = 1)) := by
  intro ops
  constructor
  · intro s hg
    exact (runOps_facts ops s hg).1
  · intro hg
    have hg0 : initialState.next_id + countCreates ops < u64Mod := by
      simpa [initialState] using hg
    refine ⟨(runOps_facts ops initialState hg0).2.2.1,
      ((runOps_facts ops initialState hg0).2.2.1).imp Nat.ne_of_lt, ?_⟩
    intro i hi
    simpa [initialState] using (runOps_facts ops initialState hg0).2.2.2 i hi

/-- C2 witness: the trace create, delete 1, create holds 2 < 2 ^ 64 creates
and yields the ids 1 then 2; the first of them is 1. -/
theorem C2_id_invariant_witness :
    countCreates [Op.create ⟨"a"⟩, Op.delete 1, Op.create ⟨"b"⟩] < u64Mod ∧
    (runOps initialState [Op.create ⟨"a"⟩, Op.delete 1, Op.create ⟨"b"⟩]).2.head? =
      some 1 ∧ (1 : Nat) = 1 :=
  ⟨by decide, by decide,
    ((C2_id_invariant [Op.create ⟨"a"⟩, Op.delete 1, Op.create ⟨"b"⟩]).2
      (by decide)).2.2 1 (by decide)⟩

/-- C3 counterexample: the response body for the empty-title rejection is
`{"error":"validation error: title cannot be empty"}`, not the verbatim
message `{"error":"title cannot be empty"}` the claim demands. -/
theorem C3_counterexample :
    (AppError.intoResponse (.Validation "title cannot be empty")).2.error ≠
      "title cannot be empty" := by decide

/-- C3 amended: `Validation(m)` maps to status 400 with body
`{"error": "validation error: " ++ m}` (the `Display` text, not the verbatim
message); `NotFound` maps to 404 with `{"error":"not found"}`; `Internal`
maps to 500 with `{"error":"internal error"}`. -/
theorem C3_error_mapping : ∀ m : String,
    AppError.intoResponse (.Validation m) = (400, ⟨"validation error: " ++ m⟩) ∧
    AppError.intoResponse .NotFound = (404, ⟨"not found"⟩) ∧
    AppError.intoResponse .Internal = (500, ⟨"internal error"⟩) :=
  fun _ => ⟨rfl, rfl, rfl⟩

/-- C3 amended witness: the mapping evaluated at the empty-title message. -/
theorem C3_error_mapping_witness :
    AppError.intoResponse (.Validation "title cannot be empty") =
      (400, ⟨"validation error: title cannot be empty"⟩) :=
  (C3_error_mapping "title cannot be empty").1

/-- C4: the validation of the update path (handler `UpdateTodo::validate`
followed by the pre-lock checks of `TodoRepo::update`) rejects an input with
both fields absent with `provide at least one field to update`, applies the
same two title checks as `CreateTodo::validate` when a title is present, and
succeeds when only `done` is present. -/
theorem C4_validateUpdate : ∀ input : UpdateTodo,
    (input.title = none ∧ input.done = none →
      validateUpdatePath input = .error (.Validation "provide at least one field to update")) ∧
    (∀ t, input.title = some t → validateUpdatePath input = CreateTodo.validate ⟨t⟩) ∧
    (input.title = none ∧ input.done ≠ none → validateUpdatePath input = .ok ()) := by
  intro input
  obtain ⟨title, done⟩ := input
  cases title with
  | none =>
    cases done with
    | none =>
      exact ⟨fun _ => rfl, fun t ht => Option.noConfusion ht, fun h => absurd rfl h.2⟩
    | some b =>
      exact ⟨fun h => Option.noConfusion h.2, fun t ht => Option.noConfusion ht,
        fun _ => rfl⟩
  | some t =>
    refine ⟨fun h => Option.noConfusion h.1, ?_, fun h => Option.noConfusion h.1⟩
    intro t' ht'
    injection ht' with heq
    subst heq
    by_cases he : (rustTrim t).data.isEmpty = true
    · simp [validateUpdatePath, UpdateTodo.validate, CreateTodo.validate, he]
    · by_cases hl : 100 < rustLen t
      · simp [validateUpdatePath, UpdateTodo.validate, CreateTodo.validate, he, hl]
      · simp [validateUpdatePath, UpdateTodo.validate, CreateTodo.validate,
          titleTrimEmpty, he, hl]

/-- C4 witness: the empty update payload is rejected with the
provide-at-least-one-field message. -/
theorem C4_validateUpdate_witness :
    validateUpdatePath ⟨none, none⟩ =
      .error (.Validation "provide at least one field to update") :=
  (C4_validateUpdate ⟨none, none⟩).1 ⟨rfl, rfl⟩

/-- C5 counterexample: a title of 34 euro signs is 34 characters (≤ 100) and
not whitespace-only, yet `CreateTodo::validate` rejects it, because the code
compares `title.len()` — the UTF-8 byte count, here 102 — against 100. -/
theorem C5_counterexample :
    (String.mk (List.replicate 34 '€')).data.length ≤ 100 ∧
    (rustTrim (String.mk (List.replicate 34 '€'))).data.isEmpty = false ∧
    CreateTodo.validate ⟨String.mk (List.replicate 34 '€')⟩ ≠ .ok () := by
  decide

/-- C5 amended: `CreateTodo::validate` fails with `title cannot be empty` when
the trimmed title is empty, fails with `title cannot be longer than 100
characters` when the title's length in UTF-8 bytes (not characters) exceeds
100, and succeeds in every other case. -/
theorem C5_validateCreate : ∀ input : CreateTodo,
    (input.validate = .error (.Validation "title cannot be empty") ↔
      (rustTrim input.title).data.isEmpty = true) ∧
    (input.validate = .error (.Validation "title cannot be longer than 100 characters") ↔
      ((rustTrim input.title).data.isEmpty = false ∧ 100 < rustLen input.title)) ∧
    (input.validate = .ok () ↔
      ((rustTrim input.title).data.isEmpty = false ∧ rustLen input.title ≤ 100)) := by
  intro input
  by_cases hc : (rustTrim input.title).data.isEmpty = true
  · simp [CreateTodo.validate, hc]
  · have hc' : (rustTrim input.title).data.isEmpty = false := by simpa using hc
    by_cases hl : 100 < rustLen input.title
    · simp [CreateTodo.validate, hc, hc', hl, Nat.not_le.mpr hl]
    · simp [CreateTodo.validate, hc, hc', hl, Nat.not_lt.mp hl]

/-- C5 amended witness: a plain short title passes validation. -/
theorem C5_validateCreate_witness :
    CreateTodo.validate ⟨"learn rust"⟩ = .ok () :=
  ((C5_validateCreate ⟨"learn rust"⟩).2.2).mpr (by decide)

/-- C6: when `TodoRepo::update` succeeds it only rewrites the present fields of
the addressed record, keeps its id, leaves every other record and the id
counter unchanged, and returns exactly the post-state of the record. -/
theorem C6_update_frame : ∀ (s : InMemory) (id : Nat) (input : UpdateTodo) (t' : Todo),
    (repoUpdate s id input).1 = .ok t' →
    ∃ t, lookupA s.items id = some t ∧
      t'.id = t.id ∧
      t'.title = input.title.getD t.title ∧
      t'.done = input.done.getD t.done ∧
      lookupA (repoUpdate s id input).2.items id = some t' ∧
      (∀ k, k ≠ id → lookupA (repoUpdate s id input).2.items k = lookupA s.items k) ∧
      (repoUpdate s id input).2.next_id = s.next_id := by
  intro s id input t' h
  by_cases h1 : titleTrimEmpty input = true
  · simp [repoUpdate, h1] at h
  · by_cases h2 : (input.title.isNone && input.done.isNone) = true
    · simp [repoUpdate, h1, h2] at h
    · have hv : repoUpdate s id input = applyUpdate s id input := by
        simp [repoUpdate, h1, h2]
      rw [hv] at h ⊢
      cases hl : lookupA s.items id with
      | none => unfold applyUpdate at h; rw [hl] at h; cases h
      | some t =>
        unfold applyUpdate at h ⊢
        rw [hl] at h ⊢
        simp only [Except.ok.injEq] at h
        refine ⟨t, rfl, ?_, ?_, ?_, ?_, ?_, rfl⟩
        · rw [← h]
        · rw [← h]
        · rw [← h]
        · rw [lookupA_insertA, if_pos rfl, h]
        · intro k hk
          rw [lookupA_insertA, if_neg hk]

/-- C6 witness: setting `done` on record 1 of a two-record store keeps its
title and id, stores `{1, "a", true}`, and leaves record 2 untouched. -/
theorem C6_update_frame_witness :
    ∃ t, lookupA [(1, ⟨1, "a", false⟩), (2, ⟨2, "b", false⟩)] 1 = some t ∧
      (Todo.mk 1 "a" true).id = t.id ∧
      (Todo.mk 1 "a" true).title = (Option.getD none t.title) ∧
      (Todo.mk 1 "a" true).done = (Option.getD (some true) t.done) ∧
      lookupA (repoUpdate ⟨2, [(1, ⟨1, "a", false⟩), (2, ⟨2, "b", false⟩)]⟩ 1
        ⟨none, some true⟩).2.items 1 = some ⟨1, "a", true⟩ ∧
      (∀ k, k ≠ 1 →
        lookupA (repoUpdate ⟨2, [(1, ⟨1, "a", false⟩), (2, ⟨2, "b", false⟩)]⟩ 1
          ⟨none, some true⟩).2.items k =
        lookupA [(1, ⟨1, "a", false⟩), (2, ⟨2, "b", false⟩)] k) ∧
      (repoUpdate ⟨2, [(1, ⟨1, "a", false⟩), (2, ⟨2, "b", false⟩)]⟩ 1
        ⟨none, some true⟩).2.next_id = 2 :=
  C6_update_frame ⟨2, [(1, ⟨1, "a", false⟩), (2, ⟨2, "b", false⟩)]⟩ 1
    ⟨none, some true⟩ ⟨1, "a", true⟩ (by decide)

/-- C7: `TodoRepo::delete` succeeds (returning unit) exactly when a record
with the id exists and otherwise fails with `NotFound` leaving the store as
it was; on a store with distinct keys (the `HashMap` invariant), a `get` of
the deleted id afterwards fails with `NotFound`. -/
theorem C7_delete : ∀ (s : InMemory) (id : Nat),
    ((∃ t, lookupA s.items id = some t) ↔ (repoDelete s id).1 = .ok ()) ∧
    (lookupA s.items id = none → repoDelete s id = (.error .NotFound, s)) ∧
    ((s.items.map Prod.fst).Nodup → (repoDelete s id).1 = .ok () →
      (repoGet (repoDelete s id).2 id).1 = .error .NotFound) := by
  intro s id
  cases hl : lookupA s.items id with
  | none =>
    have hd : repoDelete s id = (.error .NotFound, s) := by
      unfold repoDelete; rw [hl]
    refine ⟨⟨?_, ?_⟩, fun _ => hd, ?_⟩
    · intro h
      obtain ⟨t, ht⟩ := h
      exact Option.noConfusion ht
    · intro h
      simp [hd] at h
    · intro _ h
      simp [hd] at h
  | some t =>
    have hd : repoDelete s id = (.ok (), ⟨s.next_id, eraseA s.items id⟩) := by
      unfold repoDelete; rw [hl]
    refine ⟨⟨?_, fun _ => ⟨t, rfl⟩⟩, ?_, ?_⟩
    · intro _
      rw [hd]
    · intro h
      exact Option.noConfusion h
    · intro hnd _
      rw [hd]
      unfold repoGet
      rw [show lookupA (eraseA s.items id) id = none from
        lookupA_eraseA_self s.items id hnd]

/-- C7 witness: deleting the only record then getting it yields `NotFound`. -/
theorem C7_delete_witness :
    (repoGet (repoDelete ⟨1, [(1, ⟨1, "a", false⟩)]⟩ 1).2 1).1 =
      .error .NotFound :=
  (C7_delete ⟨1, [(1, ⟨1, "a", false⟩)]⟩ 1).2.2 (by decide) (by decide)

/-- C8: a record returned by a successful `TodoRepo::create` is immediately
retrievable: `get` on the returned id yields an equal record. -/
theorem C8_roundtrip : ∀ (s : InMemory) (input : CreateTodo) (t : Todo),
    (repoCreate s input).1 = .ok t →
    (repoGet (repoCreate s input).2 t.id).1 = .ok t := by
  intro s input t h
  by_cases hc : (rustTrim input.title).data.isEmpty = true
  · simp [repoCreate, hc] at h
  · have hr : repoCreate s input =
        (.ok ⟨(s.next_id + 1) % u64Mod, input.title, false⟩,
          ⟨(s.next_id + 1) % u64Mod,
            insertA s.items ((s.next_id + 1) % u64Mod)
              ⟨(s.next_id + 1) % u64Mod, input.title, false⟩⟩) := by
      simp [repoCreate, hc]
    rw [hr] at h ⊢
    simp only [Except.ok.injEq] at h
    subst h
    unfold repoGet
    rw [lookupA_insertA, if_pos rfl]

/-- C8 witness: creating on the fresh store and getting id 1 returns the
created record. -/
theorem C8_roundtrip_witness :
    (repoGet (repoCreate ⟨0, []⟩ ⟨"learn rust"⟩).2 1).1 =
      .ok ⟨1, "learn rust", false⟩ :=
  C8_roundtrip ⟨0, []⟩ ⟨"learn rust"⟩ ⟨1, "learn rust", false⟩ (by decide)

/-- C9: each of the five repository operations leaves the store (items and
`next_id`) unchanged whenever it returns an error, and `list` never errors. -/
theorem C9_error_atomicity : ∀ s : InMemory,
    ((repoList s).2 = s ∧ ∀ e, (repoList s).1 ≠ .error e) ∧
    (∀ input e, (repoCreate s input).1 = .error e → (repoCreate s input).2 = s) ∧
    (∀ id e, (repoGet s id).1 = .error e → (repoGet s id).2 = s) ∧
    (∀ id input e, (repoUpdate s id input).1 = .error e → (repoUpdate s id input).2 = s) ∧
    (∀ id e, (repoDelete s id).1 = .error e → (repoDelete s id).2 = s) := by
  intro s
  exact ⟨⟨rfl, fun e h => by simp [repoList] at h⟩,
    fun input e => repoCreate_error_state s input e,
    fun id e _ => repoGet_state s id,
    fun id input e => repoUpdate_error_state s id input e,
    fun id e => repoDelete_error_state s id e⟩

/-- C9 witness: a failing `get` on the empty store leaves it unchanged. -/
theorem C9_error_atomicity_witness :
    (repoGet ⟨0, []⟩ 7).2 = (⟨0, []⟩ : InMemory) :=
  (C9_error_atomicity ⟨0, []⟩).2.2.1 7 .NotFound rfl

/-- C10: every entry of the items map binds a key to a record whose id equals
that key, in every state reachable from the fresh store, and every single
operation preserves this property. -/
theorem C10_keys_match :
    (∀ (s : InMemory) (op : Op), KeysMatch s → KeysMatch (applyOp s op).1) ∧
    (∀ ops : List Op, KeysMatch (runOps initialState ops).1) := by
  constructor
  · exact keysMatch_applyOp
  · intro ops
    refine keysMatch_runOps ops initialState ?_
    intro p hp
    simp [initialState] at hp

/-- C10 witness: deleting from a store satisfying the key-id invariant
preserves it. -/
theorem C10_keys_match_witness :
    KeysMatch (applyOp ⟨1, [(1, ⟨1, "a", false⟩)]⟩ (Op.delete 1)).1 :=
  C10_keys_match.1 ⟨1, [(1, ⟨1, "a", false⟩)]⟩ (Op.delete 1) (by decide)

end RustApi
